import Mathlib

/-!
Shallow embedding of the expense-tracker service in `src/main.py`.

The persistent store is the single SQLite table `expenses`; it is modelled
as a list of rows together with the AUTOINCREMENT counter (`nextId`), which
SQLite never rewinds, even after deletions.  SQL `TEXT` comparison
(`BETWEEN`, `MIN`, `MAX`, `ORDER BY` on `date`) is byte-wise lexicographic;
it is modelled by lexicographic comparison of the character list.  SQL
`REAL` amounts are modelled by exact rationals (floating-point rounding is
not modelled).  Each tool call is a function from the store state to a
result and a new store state.
-/

namespace ExpenseTracker

/-- Lexicographic order on strings, as SQLite compares `TEXT` values. -/
def strLe (a b : String) : Prop := a.data ≤ b.data

/-- Strict lexicographic order on strings. -/
def strLt (a b : String) : Prop := a.data < b.data

instance (a b : String) : Decidable (strLe a b) := by unfold strLe; infer_instance

instance (a b : String) : Decidable (strLt a b) := by unfold strLt; infer_instance

/-- One row of the `expenses` table (§3 of the spec, `CREATE TABLE` in `init_db`). -/
structure Expense where
  id : Nat
  date : String
  amount : Rat
  category : String
  subcategory : String
  note : String
deriving DecidableEq, Repr

/-- The database state: the rows of the `expenses` table plus the
AUTOINCREMENT counter that supplies the next primary key. -/
structure DB where
  rows : List Expense
  nextId : Nat
deriving DecidableEq, Repr

/-- Invariants maintained by SQLite for an `INTEGER PRIMARY KEY AUTOINCREMENT`
column: ids are pairwise distinct, and every id already present is smaller
than the next id to be assigned. -/
def DB.WF (db : DB) : Prop :=
  (db.rows.map (·.id)).Nodup ∧ ∀ r ∈ db.rows, r.id < db.nextId

instance (db : DB) : Decidable db.WF := by unfold DB.WF; infer_instance

/-- Result of `add_expense`: `{"status": "success", "id": ..., "message": ...}`. -/
structure AddResult where
  id : Nat
  message : String
deriving DecidableEq, Repr

/-- `add_expense(date, amount, category, subcategory="", note="")`:
`INSERT INTO expenses(date, amount, category, subcategory, note) VALUES (?,?,?,?,?)`;
the reported id is `cur.lastrowid`. -/
def add_expense (db : DB) (date : String) (amount : Rat)
    (category subcategory note : String) : AddResult × DB :=
  (⟨db.nextId, "Expense added successfully"⟩,
   ⟨db.rows ++ [⟨db.nextId, date, amount, category, subcategory, note⟩],
    db.nextId + 1⟩)

/-- The `WHERE date BETWEEN ? AND ?` condition of `list_expenses`. -/
def inRange (s e : String) (r : Expense) : Prop :=
  strLe s r.date ∧ strLe r.date e

instance (s e : String) (r : Expense) : Decidable (inRange s e r) := by
  unfold inRange; infer_instance

/-- The `ORDER BY date DESC, id DESC` order of `list_expenses`. -/
def listOrder (x y : Expense) : Prop :=
  strLt y.date x.date ∨ (x.date = y.date ∧ y.id ≤ x.id)

instance (x y : Expense) : Decidable (listOrder x y) := by
  unfold listOrder; infer_instance

/-- `list_expenses(start_date, end_date)`:
`SELECT ... FROM expenses WHERE date BETWEEN ? AND ? ORDER BY date DESC, id DESC`. -/
def list_expenses (db : DB) (start_date end_date : String) : List Expense :=
  List.insertionSort listOrder
    (db.rows.filter (fun r => decide (inRange start_date end_date r)))

/-- Python truthiness of the optional `category: str = None` argument:
`if category:` is taken exactly when the argument is present and non-empty. -/
def truthyStr : Option String → Bool
  | none => false
  | some s => !s.isEmpty

/-- The row filter of `summarize_expenses`: `date BETWEEN ? AND ?`, plus
`AND category = ?` only when the optional category argument is truthy. -/
def summMatch (s e : String) (category : Option String) (r : Expense) : Bool :=
  decide (inRange s e r) &&
    (bif truthyStr category then decide (r.category = category.getD "") else true)

/-- One output row of `summarize_expenses`:
`SELECT category, SUM(amount) AS total_amount, COUNT(*) as count`. -/
structure SummaryRow where
  category : String
  total_amount : Rat
  count : Nat
deriving DecidableEq, Repr

/-- The aggregate row that `GROUP BY category` produces for category `c`
from the matching rows `ms`. -/
def groupFor (ms : List Expense) (c : String) : SummaryRow :=
  ⟨c, ((ms.filter (fun r => decide (r.category = c))).map (·.amount)).sum,
      (ms.filter (fun r => decide (r.category = c))).length⟩

/-- The `ORDER BY total_amount DESC` order of `summarize_expenses`. -/
def sumOrder (x y : SummaryRow) : Prop := y.total_amount ≤ x.total_amount

instance (x y : SummaryRow) : Decidable (sumOrder x y) := by
  unfold sumOrder; infer_instance

/-- `summarize_expenses(start_date, end_date, category=None)`:
filter by date range (and category when truthy), `GROUP BY category`,
`ORDER BY total_amount DESC`. -/
def summarize_expenses (db : DB) (start_date end_date : String)
    (category : Option String) : List SummaryRow :=
  let ms := db.rows.filter (summMatch start_date end_date category)
  List.insertionSort sumOrder (((ms.map (·.category)).dedup).map (groupFor ms))

/-- A `{"status": ..., "message": ...}` result of `delete_expense` /
`update_expense`. -/
inductive OpResult where
  | success (message : String)
  | error (message : String)
deriving DecidableEq, Repr

/-- `delete_expense(expense_id)`: `DELETE FROM expenses WHERE id = ?`;
reports success when `cur.rowcount > 0`, otherwise a not-found error. -/
def delete_expense (db : DB) (expense_id : Nat) : OpResult × DB :=
  let rowcount := (db.rows.filter (fun r => decide (r.id = expense_id))).length
  let db' : DB := ⟨db.rows.filter (fun r => !decide (r.id = expense_id)), db.nextId⟩
  if 0 < rowcount then
    (.success ("Expense " ++ toString expense_id ++ " deleted"), db')
  else
    (.error ("Expense " ++ toString expense_id ++ " not found"), db')

/-- The `SET` clause of `update_expense` applied to one row: each column is
overwritten exactly when the corresponding argument was supplied
(`is not None` in the source). -/
def applyUpdate (date : Option String) (amount : Option Rat)
    (category subcategory note : Option String) (r : Expense) : Expense :=
  { r with
    date := date.getD r.date
    amount := amount.getD r.amount
    category := category.getD r.category
    subcategory := subcategory.getD r.subcategory
    note := note.getD r.note }

/-- `update_expense(expense_id, date=None, amount=None, category=None,
subcategory=None, note=None)`: when no field is supplied it returns
`"No fields to update"` without touching the store; otherwise it runs
`UPDATE expenses SET <supplied columns> WHERE id = ?` and reports success
when `cur.rowcount > 0`, otherwise a not-found error. -/
def update_expense (db : DB) (expense_id : Nat) (date : Option String)
    (amount : Option Rat) (category subcategory note : Option String) :
    OpResult × DB :=
  if date.isNone && amount.isNone && category.isNone &&
      subcategory.isNone && note.isNone then
    (.error "No fields to update", db)
  else
    let rowcount := (db.rows.filter (fun r => decide (r.id = expense_id))).length
    let db' : DB :=
      ⟨db.rows.map (fun r =>
        if r.id = expense_id then
          applyUpdate date amount category subcategory note r
        else r), db.nextId⟩
    if 0 < rowcount then
      (.success ("Expense " ++ toString expense_id ++ " updated"), db')
    else
      (.error ("Expense " ++ toString expense_id ++ " not found"), db')

/-- `init_db` acting on an existing store: `CREATE TABLE IF NOT EXISTS` is a
no-op on the rows, then the canary
`INSERT OR IGNORE INTO expenses(date, amount, category) VALUES ('2000-01-01', 0, 'test')`
(subcategory and note take their `DEFAULT ''`), followed by
`DELETE FROM expenses WHERE category = 'test'`. -/
def init_db (db : DB) : DB :=
  let withSentinel := db.rows ++ [⟨db.nextId, "2000-01-01", 0, "test", "", ""⟩]
  ⟨withSentinel.filter (fun r => decide (r.category ≠ "test")), db.nextId + 1⟩

/-- One entry of the statistics per-category breakdown:
`SELECT category, COUNT(*), SUM(amount) ... GROUP BY category`. -/
structure CatStat where
  category : String
  count : Nat
  total : Rat
deriving DecidableEq, Repr

/-- The aggregate entry the statistics `GROUP BY category` produces for
category `c`. -/
def catStatFor (rows : List Expense) (c : String) : CatStat :=
  ⟨c, (rows.filter (fun r => decide (r.category = c))).length,
      ((rows.filter (fun r => decide (r.category = c))).map (·.amount)).sum⟩

/-- The `ORDER BY SUM(amount) DESC` order of the statistics breakdown. -/
def catOrder (x y : CatStat) : Prop := y.total ≤ x.total

instance (x y : CatStat) : Decidable (catOrder x y) := by
  unfold catOrder; infer_instance

/-- SQL `MIN(date)`: `NULL` on an empty table, otherwise the lexicographically
smallest date. -/
def minDate? (l : List String) : Option String :=
  l.foldl (fun acc d =>
    match acc with
    | none => some d
    | some m => if strLt d m then some d else some m) none

/-- SQL `MAX(date)`: `NULL` on an empty table, otherwise the lexicographically
largest date. -/
def maxDate? (l : List String) : Option String :=
  l.foldl (fun acc d =>
    match acc with
    | none => some d
    | some m => if strLt m d then some d else some m) none

/-- The JSON object built by the `expense:///stats` resource. -/
structure Stats where
  total_expenses : Nat
  total_amount : Rat
  first_expense : Option String
  last_expense : Option String
  by_category : List CatStat
deriving DecidableEq, Repr

/-- `get_statistics`: `COUNT(*)` and `SUM(amount)` (the Python `or 0` /
`or 0.0` turns the `NULL` sum of an empty table into `0`), `MIN(date)` and
`MAX(date)` (both `NULL` on an empty table), and the per-category breakdown
ordered by `SUM(amount) DESC`. -/
def get_statistics (db : DB) : Stats :=
  { total_expenses := db.rows.length
    total_amount := (db.rows.map (·.amount)).sum
    first_expense := minDate? (db.rows.map (·.date))
    last_expense := maxDate? (db.rows.map (·.date))
    by_category := List.insertionSort catOrder
      (((db.rows.map (·.category)).dedup).map (catStatFor db.rows)) }

/-- Gregorian leap year, as implemented by Python's `datetime`. -/
def isLeap (y : Nat) : Bool :=
  (y % 4 == 0 && y % 100 != 0) || y % 400 == 0

/-- Day of the month of `datetime(y, m+1, 1) - timedelta(days=1)`, i.e. the
number of days of month `m` of year `y` in the Gregorian calendar used by
Python's `datetime` (meaningful for `1 ≤ m ≤ 11` in the source, where the
branch is only reached when `m ≠ 12`). -/
def daysInMonth (y m : Nat) : Nat :=
  if m = 2 then (if isLeap y then 29 else 28)
  else if m = 4 ∨ m = 6 ∨ m = 9 ∨ m = 11 then 30
  else 31

/-- The day of the end-of-range date computed by `monthly_report`:
`31` is hard-coded for December, otherwise
`(datetime(year, month+1, 1) - timedelta(days=1)).day`. -/
def monthly_report_end_day (year month : Nat) : Nat :=
  if month = 12 then 31 else daysInMonth year month

/-- Python `str.zfill(2)`. -/
def zfill2 (s : String) : String :=
  if s.length < 2 then String.mk (List.replicate (2 - s.length) '0') ++ s else s

/-- The `start_date` string of `monthly_report`: `f"{year}-{month.zfill(2)}-01"`. -/
def monthly_report_start_date (year month : Nat) : String :=
  toString year ++ "-" ++ zfill2 (toString month) ++ "-01"

/-- The `end_date` string of `monthly_report` (the last day is interpolated
without zero-padding; it is always at least 28). -/
def monthly_report_end_date (year month : Nat) : String :=
  toString year ++ "-" ++ zfill2 (toString month) ++ "-" ++
    toString (monthly_report_end_day year month)

/-! Order facts about the embedded comparison relations. -/

lemma str_ext {a b : String} (h : a.data = b.data) : a = b :=
  congrArg String.mk h

lemma strLt_trans {a b c : String} (h1 : strLt a b) (h2 : strLt b c) :
    strLt a c := by
  unfold strLt at *; exact lt_trans h1 h2

instance : IsTotal Expense listOrder :=
  ⟨by
    intro x y
    rcases lt_trichotomy x.date.data y.date.data with h | h | h
    · exact Or.inr (Or.inl h)
    · have hd : x.date = y.date := str_ext h
      rcases Nat.le_total y.id x.id with h2 | h2
      · exact Or.inl (Or.inr ⟨hd, h2⟩)
      · exact Or.inr (Or.inr ⟨hd.symm, h2⟩)
    · exact Or.inl (Or.inl h)⟩

instance : IsTrans Expense listOrder :=
  ⟨by
    intro a b c hab hbc
    rcases hab with hab | ⟨hab1, hab2⟩
    · rcases hbc with hbc | ⟨hbc1, hbc2⟩
      · exact Or.inl (strLt_trans hbc hab)
      · exact Or.inl (hbc1 ▸ hab)
    · rcases hbc with hbc | ⟨hbc1, hbc2⟩
      · exact Or.inl (hab1.symm ▸ hbc)
      · exact Or.inr ⟨hab1.trans hbc1, le_trans hbc2 hab2⟩⟩

instance : IsTotal SummaryRow sumOrder :=
  ⟨fun x y => le_total y.total_amount x.total_amount⟩

instance : IsTrans SummaryRow sumOrder :=
  ⟨fun _ _ _ h1 h2 => le_trans h2 h1⟩

instance : IsTotal CatStat catOrder :=
  ⟨fun x y => le_total y.total x.total⟩

instance : IsTrans CatStat catOrder :=
  ⟨fun _ _ _ h1 h2 => le_trans h2 h1⟩

/-! Claim theorems. -/

/-- C5: calling `update_expense` with none of the optional fields supplied
returns the validation error `"No fields to update"` and leaves the store
entirely unchanged. -/
theorem update_expense_no_fields (db : DB) (k : Nat) :
    update_expense db k none none none none none =
      (.error "No fields to update", db) := rfl

/-- C7: on an empty expense table, `get_statistics` returns zero total
count, zero total amount, `NULL` first and last dates, and an empty
per-category breakdown, without an error. -/
theorem get_statistics_empty (db : DB) (h : db.rows = []) :
    get_statistics db = ⟨0, 0, none, none, []⟩ := by
  obtain ⟨rows, n⟩ := db
  simp only at h
  subst h
  rfl

/-- Witness for `get_statistics_empty` at the concrete empty store. -/
theorem get_statistics_empty_witness :
    get_statistics ⟨[], 1⟩ = ⟨0, 0, none, none, []⟩ :=
  get_statistics_empty ⟨[], 1⟩ rfl

/-- C10: `summarize_expenses` with the empty string as category filter
behaves exactly like `summarize_expenses` with no category filter, because
`if category:` in the source treats the empty string as falsy. -/
theorem summarize_expenses_empty_string_category (db : DB) (s e : String) :
    summarize_expenses db s e (some "") = summarize_expenses db s e none := rfl

/-- C8: the end-of-range day computed by `monthly_report` is the correct
Gregorian last day of the requested month: 31 for December (the hard-coded
branch), 30 for April, and in general the calendar month length, including
the leap-year rule for February. -/
theorem monthly_report_end_day_spec (y : Nat) :
    monthly_report_end_day y 12 = 31 ∧
    monthly_report_end_day y 4 = 30 ∧
    (∀ m ∈ [1, 3, 5, 7, 8, 10, 12], monthly_report_end_day y m = 31) ∧
    (∀ m ∈ [4, 6, 9, 11], monthly_report_end_day y m = 30) ∧
    monthly_report_end_day y 2 = (if isLeap y then 29 else 28) := by
  refine ⟨rfl, rfl, ?_, ?_, rfl⟩
  · intro m hm
    fin_cases hm <;> rfl
  · intro m hm
    fin_cases hm <;> rfl

/-- Witness for `monthly_report_end_day_spec` at year 2025, month 11. -/
theorem monthly_report_end_day_spec_witness :
    monthly_report_end_day 2025 11 = 30 :=
  (monthly_report_end_day_spec 2025).2.2.2.1 11 (by decide)

/-- A nonempty list whose members are all equal to `a` and which has no
duplicates is `[a]`. -/
lemma nodup_all_eq_singleton {α : Type} {l : List α} {a : α}
    (hn : l.Nodup) (ha : a ∈ l) (hu : ∀ b ∈ l, b = a) : l = [a] := by
  cases l with
  | nil => cases ha
  | cons b t =>
    have hb : b = a := hu b (List.mem_cons_self b t)
    subst hb
    cases t with
    | nil => rfl
    | cons c u =>
      have hc : c = b := hu c (by simp)
      subst hc
      simp at hn

/-- C9, counterexample to the claim as stated: a pre-existing expense row
whose category happens to be `'test'` is removed by the canary, because the
canary clean-up is `DELETE FROM expenses WHERE category = 'test'` rather
than a delete of the inserted sentinel row only. -/
theorem init_db_deletes_preexisting_test_row :
    (⟨7, "2024-01-01", 3, "test", "", ""⟩ : Expense)
        ∈ (⟨[⟨7, "2024-01-01", 3, "test", "", ""⟩], 8⟩ : DB).rows
    ∧ (⟨7, "2024-01-01", 3, "test", "", ""⟩ : Expense)
        ∉ (init_db ⟨[⟨7, "2024-01-01", 3, "test", "", ""⟩], 8⟩).rows := by
  decide

/-- C9, amended: the canary insert-then-delete of `init_db` leaves every
previously stored row unchanged provided no pre-existing row has category
`'test'`; pre-existing rows with category `'test'` are deleted along with
the sentinel. -/
theorem init_db_frame (db : DB) (h : ∀ r ∈ db.rows, r.category ≠ "test") :
    (init_db db).rows = db.rows := by
  unfold init_db
  simp only [List.filter_append]
  have h1 : db.rows.filter (fun r => decide (r.category ≠ "test")) = db.rows :=
    List.filter_eq_self.mpr (fun a ha => by simpa using h a ha)
  have h2 : ([⟨db.nextId, "2000-01-01", 0, "test", "", ""⟩] : List Expense).filter
      (fun r => decide (r.category ≠ "test")) = [] := rfl
  rw [h1, h2, List.append_nil]

/-- Witness for `init_db_frame` at a one-row store without a `'test'` row. -/
theorem init_db_frame_witness :
    (init_db ⟨[⟨1, "2024-01-01", 3, "Food", "", ""⟩], 2⟩).rows
      = (⟨[⟨1, "2024-01-01", 3, "Food", "", ""⟩], 2⟩ : DB).rows :=
  init_db_frame ⟨[⟨1, "2024-01-01", 3, "Food", "", ""⟩], 2⟩ (by decide)

lemma delete_expense_snd (db : DB) (k : Nat) :
    (delete_expense db k).2
      = ⟨db.rows.filter (fun r => !decide (r.id = k)), db.nextId⟩ := by
  unfold delete_expense
  dsimp only
  split <;> rfl

lemma delete_expense_fst_found (db : DB) (k : Nat)
    (h : 0 < (db.rows.filter (fun r => decide (r.id = k))).length) :
    (delete_expense db k).1
      = .success ("Expense " ++ toString k ++ " deleted") := by
  unfold delete_expense
  dsimp only
  rw [if_pos h]

lemma delete_expense_fst_not_found (db : DB) (k : Nat)
    (h : ¬ 0 < (db.rows.filter (fun r => decide (r.id = k))).length) :
    (delete_expense db k).1
      = .error ("Expense " ++ toString k ++ " not found") := by
  unfold delete_expense
  dsimp only
  rw [if_neg h]

/-- C4: `delete_expense` succeeds exactly when a row with the given id
exists; it removes exactly that row (the remaining rows are precisely the
rows with a different id, and under unique primary keys the length drops by
one); on a missing id it returns the not-found error and leaves the store
unchanged; deleting the same id a second time yields the not-found error. -/
theorem delete_expense_spec (db : DB) (k : Nat)
    (hids : (db.rows.map (·.id)).Nodup) :
    ((delete_expense db k).1
        = .success ("Expense " ++ toString k ++ " deleted")
      ↔ ∃ r ∈ db.rows, r.id = k)
    ∧ (∀ r, r ∈ (delete_expense db k).2.rows ↔ r ∈ db.rows ∧ r.id ≠ k)
    ∧ (∀ r ∈ db.rows, r.id = k →
        (delete_expense db k).2.rows.length + 1 = db.rows.length)
    ∧ ((∀ r ∈ db.rows, r.id ≠ k) →
        (delete_expense db k).1
            = .error ("Expense " ++ toString k ++ " not found")
          ∧ (delete_expense db k).2 = db)
    ∧ (delete_expense (delete_expense db k).2 k).1
        = .error ("Expense " ++ toString k ++ " not found") := by
  have hsnd := delete_expense_snd db k
  have hcond : (0 < (db.rows.filter (fun r => decide (r.id = k))).length)
      ↔ ∃ r ∈ db.rows, r.id = k := by
    constructor
    · intro h
      obtain ⟨a, ha⟩ := List.exists_mem_of_length_pos h
      rw [List.mem_filter] at ha
      exact ⟨a, ha.1, by simpa using ha.2⟩
    · rintro ⟨r, hr, hrk⟩
      exact List.length_pos_of_mem (List.mem_filter.mpr ⟨hr, by simpa using hrk⟩)
  refine ⟨?_, ?_, ?_, ?_, ?_⟩
  · by_cases h : 0 < (db.rows.filter (fun r => decide (r.id = k))).length
    · rw [delete_expense_fst_found db k h]
      simp only [true_iff]
      exact hcond.mp h
    · rw [delete_expense_fst_not_found db k h]
      constructor
      · intro hEq
        simp at hEq
      · intro hex
        exact absurd (hcond.mpr hex) h
  · intro r
    rw [hsnd]
    simp [List.mem_filter]
  · intro r hr hrk
    rw [hsnd]
    have hone : db.rows.filter (fun r => decide (r.id = k)) = [r] := by
      refine nodup_all_eq_singleton ((hids.of_map).filter _) ?_ ?_
      · exact List.mem_filter.mpr ⟨hr, by simpa using hrk⟩
      · intro b hb
        rw [List.mem_filter] at hb
        have hbk : b.id = k := by simpa using hb.2
        exact List.inj_on_of_nodup_map hids hb.1 hr (by rw [hbk, hrk])
    have h2 := List.length_eq_length_filter_add (l := db.rows)
      (fun r => decide (r.id = k))
    rw [hone] at h2
    have h3 : (db.rows.filter (fun r => !decide (r.id = k))).length
        = (db.rows.filter (fun r => !(fun r => decide (r.id = k)) r)).length := rfl
    simp only [List.length_cons, List.length_nil] at h2
    rw [h3]
    omega
  · intro h
    have hnone : ¬ (0 < (db.rows.filter (fun r => decide (r.id = k))).length) :=
      fun hlt => by
        obtain ⟨r, hr, hrk⟩ := hcond.mp hlt
        exact h r hr hrk
    constructor
    · exact delete_expense_fst_not_found db k hnone
    · rw [hsnd]
      have : db.rows.filter (fun r => !decide (r.id = k)) = db.rows :=
        List.filter_eq_self.mpr (fun a ha => by simpa using h a ha)
      rw [this]
  · have hnone : ¬ (0 < ((delete_expense db k).2.rows.filter
        (fun r => decide (r.id = k))).length) := by
      intro hlt
      obtain ⟨a, ha⟩ := List.exists_mem_of_length_pos hlt
      rw [List.mem_filter] at ha
      have h1 := ha.1
      rw [hsnd] at h1
      rw [List.mem_filter] at h1
      have : a.id = k := by simpa using ha.2
      simp [this] at h1
    exact delete_expense_fst_not_found _ k hnone

/-- Witness for `delete_expense_spec`: double deletion of id 1 on a
one-row store reports not-found the second time. -/
theorem delete_expense_spec_witness :
    (delete_expense
        (delete_expense ⟨[⟨1, "2024-01-01", 5, "Food", "", ""⟩], 2⟩ 1).2 1).1
      = .error ("Expense " ++ toString 1 ++ " not found") :=
  (delete_expense_spec ⟨[⟨1, "2024-01-01", 5, "Food", "", ""⟩], 2⟩ 1
    (by decide)).2.2.2.2

lemma update_amount_snd (db : DB) (k : Nat) (a : Rat) :
    (update_expense db k none (some a) none none none).2
      = ⟨db.rows.map (fun r => if r.id = k then { r with amount := a } else r),
         db.nextId⟩ := by
  unfold update_expense
  split
  · rename_i hfalse
    simp at hfalse
  · dsimp only
    split <;> rfl

lemma update_amount_fst (db : DB) (k : Nat) (a : Rat)
    (h : 0 < (db.rows.filter (fun r => decide (r.id = k))).length) :
    (update_expense db k none (some a) none none none).1
      = .success ("Expense " ++ toString k ++ " updated") := by
  unfold update_expense
  split
  · rename_i hfalse
    simp at hfalse
  · dsimp only
    rw [if_pos h]

/-- C2: updating only `amount` on an existing row sets that row's amount
and leaves its other fields untouched; every other row, the row count and
the id counter are unchanged, and the call reports success. -/
theorem update_expense_amount_only (db : DB) (k : Nat) (a : Rat)
    (hk : ∃ r ∈ db.rows, r.id = k) :
    (update_expense db k none (some a) none none none).1
        = .success ("Expense " ++ toString k ++ " updated")
    ∧ (update_expense db k none (some a) none none none).2.nextId = db.nextId
    ∧ (update_expense db k none (some a) none none none).2.rows.length
        = db.rows.length
    ∧ (∀ r ∈ db.rows, r.id ≠ k →
        r ∈ (update_expense db k none (some a) none none none).2.rows)
    ∧ (∀ r ∈ db.rows, r.id = k →
        ({ r with amount := a } : Expense)
          ∈ (update_expense db k none (some a) none none none).2.rows)
    ∧ (∀ r' ∈ (update_expense db k none (some a) none none none).2.rows,
        ∃ r ∈ db.rows,
          (r.id ≠ k ∧ r' = r) ∨ (r.id = k ∧ r' = { r with amount := a })) := by
  obtain ⟨r0, hr0, hr0k⟩ := hk
  have hpos : 0 < (db.rows.filter (fun r => decide (r.id = k))).length :=
    List.length_pos_of_mem (List.mem_filter.mpr ⟨hr0, by simpa using hr0k⟩)
  have hsnd := update_amount_snd db k a
  refine ⟨update_amount_fst db k a hpos, ?_, ?_, ?_, ?_, ?_⟩
  · rw [hsnd]
  · rw [hsnd]
    exact List.length_map _ _
  · intro r hr hne
    rw [hsnd]
    exact List.mem_map.mpr ⟨r, hr, by simp [hne]⟩
  · intro r hr hrk
    rw [hsnd]
    exact List.mem_map.mpr ⟨r, hr, by simp [hrk]⟩
  · intro r' hr'
    rw [hsnd] at hr'
    obtain ⟨r, hr, hf⟩ := List.mem_map.mp hr'
    refine ⟨r, hr, ?_⟩
    by_cases hc : r.id = k
    · exact Or.inr ⟨hc, by rw [← hf]; simp [hc]⟩
    · exact Or.inl ⟨hc, by rw [← hf]; simp [hc]⟩

/-- Witness for `update_expense_amount_only` on a one-row store. -/
theorem update_expense_amount_only_witness :
    (update_expense ⟨[⟨1, "2024-01-01", 5, "Food", "", ""⟩], 2⟩ 1
        none (some 9) none none none).1
      = .success ("Expense " ++ toString 1 ++ " updated") :=
  (update_expense_amount_only ⟨[⟨1, "2024-01-01", 5, "Food", "", ""⟩], 2⟩ 1 9
    ⟨⟨1, "2024-01-01", 5, "Food", "", ""⟩, by decide, rfl⟩).1

/-- C6: `list_expenses` returns exactly the rows whose date lies
lexicographically between the two bounds (both inclusive), ordered by date
descending and, within equal dates, by id descending. -/
theorem list_expenses_spec (db : DB) (s e : String) :
    (∀ r, r ∈ list_expenses db s e ↔
        r ∈ db.rows ∧ strLe s r.date ∧ strLe r.date e)
    ∧ List.Pairwise
        (fun x y => strLt y.date x.date ∨ (x.date = y.date ∧ y.id ≤ x.id))
        (list_expenses db s e)
    ∧ (list_expenses db s e).Perm
        (db.rows.filter (fun r => decide (inRange s e r))) := by
  refine ⟨?_, ?_, ?_⟩
  · intro r
    rw [list_expenses, List.mem_insertionSort, List.mem_filter]
    simp [inRange]
  · exact List.sorted_insertionSort listOrder _
  · exact List.perm_insertionSort listOrder _

/-- Witness for `list_expenses_spec`: the output order property at a
concrete store. -/
theorem list_expenses_spec_witness :
    List.Pairwise
        (fun x y => strLt y.date x.date ∨ (x.date = y.date ∧ y.id ≤ x.id))
        (list_expenses ⟨[⟨1, "2024-01-01", 5, "Food", "", ""⟩], 2⟩
          "2024-01-01" "2024-12-31") :=
  (list_expenses_spec ⟨[⟨1, "2024-01-01", 5, "Food", "", ""⟩], 2⟩
    "2024-01-01" "2024-12-31").2.1

/-- C1: after `add_expense`, listing a date range containing the inserted
date returns exactly one record with the freshly reported id, all its
fields verbatim as inserted, and that id differs from every id already in
the store. -/
theorem add_then_list_spec (db : DB) (hwf : db.WF) (d : String) (a : Rat)
    (c sub n : String) (s e : String) (hs : strLe s d) (he : strLe d e) :
    (∀ r ∈ db.rows, r.id ≠ (add_expense db d a c sub n).1.id)
    ∧ (list_expenses (add_expense db d a c sub n).2 s e).filter
        (fun r => decide (r.id = (add_expense db d a c sub n).1.id))
      = [⟨(add_expense db d a c sub n).1.id, d, a, c, sub, n⟩] := by
  constructor
  · intro r hr
    exact Nat.ne_of_lt (hwf.2 r hr)
  · show (list_expenses ⟨db.rows ++ [⟨db.nextId, d, a, c, sub, n⟩],
        db.nextId + 1⟩ s e).filter (fun r => decide (r.id = db.nextId))
      = [⟨db.nextId, d, a, c, sub, n⟩]
    set new : Expense := ⟨db.nextId, d, a, c, sub, n⟩ with hnewdef
    unfold list_expenses
    have hperm :=
      (List.perm_insertionSort listOrder
        ((db.rows ++ [new]).filter (fun r => decide (inRange s e r)))).filter
        (fun r => decide (r.id = db.nextId))
    have hq : ((db.rows ++ [new]).filter
          (fun r => decide (inRange s e r))).filter
        (fun r => decide (r.id = db.nextId)) = [new] := by
      rw [List.filter_filter, List.filter_append]
      have hrows : db.rows.filter
          (fun a => decide (a.id = db.nextId) && decide (inRange s e a)) = [] :=
        List.filter_eq_nil_iff.mpr (fun r hr => by
          have := Nat.ne_of_lt (hwf.2 r hr)
          simp [this])
      have hnew1 : ([new] : List Expense).filter
          (fun a => decide (a.id = db.nextId) && decide (inRange s e a))
            = [new] := by
        simp [hnewdef, inRange, hs, he]
      rw [hrows, hnew1, List.nil_append]
    rw [hq] at hperm
    exact List.perm_singleton.mp hperm

/-- Witness for `add_then_list_spec`: inserting into the empty store and
listing the surrounding range returns exactly the inserted record. -/
theorem add_then_list_spec_witness :
    (list_expenses (add_expense ⟨[], 1⟩ "2024-05-01" 5 "Food" "" "").2
        "2024-01-01" "2024-12-31").filter
        (fun r => decide
          (r.id = (add_expense (⟨[], 1⟩ : DB) "2024-05-01" 5 "Food" "" "").1.id))
      = [⟨(add_expense (⟨[], 1⟩ : DB) "2024-05-01" 5 "Food" "" "").1.id,
          "2024-05-01", 5, "Food", "", ""⟩] :=
  (add_then_list_spec ⟨[], 1⟩ (by decide) "2024-05-01" 5 "Food" "" ""
    "2024-01-01" "2024-12-31" (by decide) (by decide)).2

/-- C3: every summary row aggregates a category with at least one matching
expense, carrying the sum of amounts and the row count of the matching
expenses of that category; every category with a matching expense appears;
no category appears twice; and the rows are ordered by total amount
descending. -/
theorem summarize_expenses_spec (db : DB) (s e : String) (cat : Option String) :
    (∀ g ∈ summarize_expenses db s e cat,
        0 < g.count
        ∧ g.total_amount =
            (((db.rows.filter (summMatch s e cat)).filter
                (fun r => decide (r.category = g.category))).map (·.amount)).sum
        ∧ g.count =
            ((db.rows.filter (summMatch s e cat)).filter
                (fun r => decide (r.category = g.category))).length)
    ∧ (∀ c : String,
        (∃ r ∈ db.rows.filter (summMatch s e cat), r.category = c) →
        ∃ g ∈ summarize_expenses db s e cat, g.category = c)
    ∧ ((summarize_expenses db s e cat).map (·.category)).Nodup
    ∧ List.Pairwise (fun x y => y.total_amount ≤ x.total_amount)
        (summarize_expenses db s e cat) := by
  refine ⟨?_, ?_, ?_, ?_⟩
  · intro g hg
    unfold summarize_expenses at hg
    rw [List.mem_insertionSort] at hg
    obtain ⟨c, hc, rfl⟩ := List.mem_map.mp hg
    have hc' : c ∈ (db.rows.filter (summMatch s e cat)).map (·.category) :=
      List.mem_dedup.mp hc
    obtain ⟨r, hr, hrc⟩ := List.mem_map.mp hc'
    refine ⟨?_, rfl, rfl⟩
    exact List.length_pos_of_mem
      (List.mem_filter.mpr ⟨hr, by simpa using hrc⟩)
  · rintro c ⟨r, hr, hrc⟩
    have hc : c ∈ ((db.rows.filter (summMatch s e cat)).map (·.category)).dedup :=
      List.mem_dedup.mpr (List.mem_map.mpr ⟨r, hr, hrc⟩)
    refine ⟨groupFor (db.rows.filter (summMatch s e cat)) c, ?_, rfl⟩
    unfold summarize_expenses
    rw [List.mem_insertionSort]
    exact List.mem_map.mpr ⟨c, hc, rfl⟩
  · unfold summarize_expenses
    have hperm := (List.perm_insertionSort sumOrder
      ((((db.rows.filter (summMatch s e cat)).map (·.category)).dedup).map
        (groupFor (db.rows.filter (summMatch s e cat))))).map (·.category)
    rw [(hperm.nodup_iff)]
    rw [List.map_map]
    exact List.map_id'' (fun c => rfl) _ ▸
      ((db.rows.filter (summMatch s e cat)).map (·.category)).nodup_dedup
  · exact List.sorted_insertionSort sumOrder _

/-- Witness for `summarize_expenses_spec`: category uniqueness of the
summary of a concrete one-row store. -/
theorem summarize_expenses_spec_witness :
    ((summarize_expenses ⟨[⟨1, "2024-01-01", 5, "Food", "", ""⟩], 2⟩
        "2024-01-01" "2024-12-31" none).map (·.category)).Nodup :=
  (summarize_expenses_spec ⟨[⟨1, "2024-01-01", 5, "Food", "", ""⟩], 2⟩
    "2024-01-01" "2024-12-31" none).2.2.1

end ExpenseTracker
